import Mathlib

/-!
# Verification of the QLED-RLopt environment core

Shallow embedding of `qled_env/parameter_space.py`, `qled_env/reward_function.py`,
`qled_env/surrogate_sim.py` and `qled_env/rl_env.py`.  Python floats are modelled
as real numbers (so NaN/infinity never arise and `_safe_float` is the identity on
values that are already numbers); string-keyed dictionaries are modelled as
association lists where the *first* binding for a key wins, so a later
`d[k] = v` write is modelled by prepending `(k, v)`.
-/

namespace QLEDRLopt

noncomputable section

open Real

/-- Python `max(lo, min(hi, x))` (`_clamp` in `reward_function.py` and
`surrogate_sim.py`). -/
def pyClamp (x lo hi : ℝ) : ℝ := max lo (min hi x)

/-- Python `np.clip(x, lo, hi)` applied to one component, and the
`min(max(v, low), high)` pattern of `ParameterSpace.to_normalized`. -/
def clip (x lo hi : ℝ) : ℝ := min hi (max lo x)

/-- Python `d.get(k, default)` on a dict modelled as an association list
(first binding wins). -/
def getD (m : List (String × ℝ)) (k : String) (d : ℝ) : ℝ :=
  match m with
  | [] => d
  | (k', v) :: rest => if k' = k then v else getD rest k d

/-- Python `d[k]` on a dict modelled as an association list: `none` models a
raised `KeyError`. -/
def lookupKey (m : List (String × ℝ)) (k : String) : Option ℝ :=
  match m with
  | [] => none
  | (k', v) :: rest => if k' = k then some v else lookupKey rest k

/-- Euclidean norm of a vector (`np.linalg.norm`). -/
def euclNorm (l : List ℝ) : ℝ := Real.sqrt ((l.map (fun v => v ^ 2)).sum)

/-- Python `np.mean` of a vector (the vectors in play are never empty). -/
def listMean (l : List ℝ) : ℝ := l.sum / (l.length : ℝ)

/-! ## `parameter_space.py` -/

/-- Embeds `ParamDef` from `parameter_space.py`: an immutable (name, low, high) triple. -/
structure ParamDef where
  name : String
  low : ℝ
  high : ℝ

/-- The fixed ordered dimension list built in `ParameterSpace.__init__`. -/
def qledParams : List ParamDef := [
  ⟨"t_HTL_nm", 10, 60⟩,
  ⟨"t_EML_nm", 10, 40⟩,
  ⟨"t_ETL_nm", 10, 60⟩,
  ⟨"phi_HTL_eV", 4.8, 5.6⟩,
  ⟨"phi_ETL_eV", 3.8, 4.5⟩,
  ⟨"p_doping_HTL", 0, 0.3⟩,
  ⟨"n_doping_ETL", 0, 0.3⟩,
  ⟨"ps_radius_nm", 50, 250⟩,
  ⟨"ps_fill_frac", 0, 0.5⟩,
  ⟨"sl_thickness_nm", 8, 30⟩,
  ⟨"sl_gap_um", 0.3, 5⟩,
  ⟨"qd_coverage", 0.2, 1⟩,
  ⟨"V_drive", 2, 6⟩]

/-- One loop iteration of `ParameterSpace.to_real`: clamp the component into
[-1, 1] and map it affinely into [low, high]. -/
def toRealOne (p : ParamDef) (xi : ℝ) : String × ℝ :=
  (p.name, p.low + ((clip xi (-1) 1 + 1) / 2) * (p.high - p.low))

/-- Embeds `ParameterSpace.to_real`: map a normalized vector to the physical
parameter dict (`np.clip` first, then the per-dimension affine map). -/
def to_real (x : List ℝ) : List (String × ℝ) :=
  List.zipWith toRealOne qledParams x

/-- One loop iteration of `ParameterSpace.to_normalized`: a missing key is the
raised `KeyError`; otherwise the value is clamped into [low, high] and mapped
affinely (with the `1e-12` denominator guard) into [-1, 1]. -/
def toNormalizedOne (d : List (String × ℝ)) (p : ParamDef) : Option ℝ :=
  (lookupKey d p.name).map (fun v0 =>
    let v := min (max v0 p.low) p.high
    2 * ((v - p.low) / (p.high - p.low + 1e-12)) - 1)

/-- The strict per-dimension loop of `to_normalized`: the first missing key
aborts the whole conversion (Python raises `KeyError`). -/
def mapStrict (f : ParamDef → Option ℝ) : List ParamDef → Option (List ℝ)
  | [] => some []
  | p :: ps =>
    match f p, mapStrict f ps with
    | some v, some vs => some (v :: vs)
    | _, _ => none

/-- Embeds `ParameterSpace.to_normalized`: real parameter dict to normalized vector;
`none` models the `KeyError` raised on a missing dimension name. -/
def to_normalized (d : List (String × ℝ)) : Option (List ℝ) :=
  mapStrict (toNormalizedOne d) qledParams

/-- Embeds `ParameterSpace.constraint_violation`.  In the environment this is only
ever applied to the output of `to_real`, which always carries all thirteen
keys, so the (then unreachable) `KeyError` of Python's `params[k]` is modelled
by the default 0. -/
def constraint_violation (params : List (String × ℝ)) : List (String × ℝ) :=
  [("t_total_over_180nm",
      max 0 (getD params "t_HTL_nm" 0 + getD params "t_EML_nm" 0 +
        getD params "t_ETL_nm" 0 - 180)),
   ("ps_fill_frac_over_0p45", max 0 (getD params "ps_fill_frac" 0 - 0.45)),
   ("sl_gap_under_0p5um", max 0 (0.5 - getD params "sl_gap_um" 0)),
   ("V_drive_over_5p5V", max 0 (getD params "V_drive" 0 - 5.5))]

/-- The `violation` argument of `compute_reward` / `is_hard_invalid`: either a
dict of named severities or a bare scalar. -/
inductive Violation where
  | dict (m : List (String × ℝ))
  | scalar (v : ℝ)

/-- Embeds `ParameterSpace.is_hard_invalid`: true iff any entry (or the scalar)
exceeds 20. -/
def is_hard_invalid (v : Violation) : Prop :=
  match v with
  | .dict m => ∃ p ∈ m, 20 < p.2
  | .scalar s => 20 < s

/-! ## `reward_function.py` -/

/-- Python `math.log1p`. -/
def log1p (x : ℝ) : ℝ := Real.log (1 + x)

/-- Embeds `_log1p_norm` from `reward_function.py`. -/
def log1pNorm (x ref : ℝ) : ℝ :=
  pyClamp (log1p (max 0 x) / log1p (max 1e-12 ref)) 0 2

/-- The `hinge` sub-dict of the diagnostic info returned by `compute_reward`. -/
structure HingeInfo where
  target_overlap : ℝ
  target_balance : ℝ
  droop_floor : ℝ
  life_floor : ℝ
  low_overlap_pen : ℝ
  low_balance_pen : ℝ
  low_droop_pen : ℝ
  low_life_pen : ℝ
  bri_low_pen : ℝ
  bri_high_pen : ℝ

/-- The diagnostic info dict returned by `compute_reward` (a fixed
schema, so modelled as a structure). -/
structure RewardInfo where
  U : ℝ
  dU : ℝ
  bonus : ℝ
  raw : ℝ
  reward : ℝ
  eqe : ℝ
  overlap : ℝ
  inj_balance : ℝ
  droop : ℝ
  brightness : ℝ
  leakage : ℝ
  auger_rate : ℝ
  lifetime : ℝ
  V_drive : ℝ
  delta_params_norm : ℝ
  boundary_penalty : ℝ
  eml_thin_penalty : ℝ
  pen_soft : ℝ
  hinge : HingeInfo

/-- The constraint-penalty aggregation step of `compute_reward`: a dict is
summed over `max(0, v)` per entry, a scalar is clipped at 0. -/
def constraintPenalty (violation : Violation) : ℝ :=
  match violation with
  | .dict m => (m.map (fun p => max 0 p.2)).sum
  | .scalar v => max 0 v

/-- Embeds `compute_reward` from `reward_function.py` (reward v10).  The `U_prev`
shaping signal, stored in the metrics dict by the environment as a
float-or-None, is passed as the separate `uPrev : Option ℝ` argument; every
other metric is a real number read with `dict.get` defaults (`_safe_float` on
a real number is the identity). -/
def compute_reward (metrics : List (String × ℝ)) (uPrev : Option ℝ)
    (violation : Violation) : ℝ × RewardInfo :=
  let eqe := getD metrics "EQE" 0
  let overlap := pyClamp (getD metrics "recomb_overlap" 0) 0 1
  let balance := pyClamp (getD metrics "inj_balance" 0) 0 1
  let droop := pyClamp (getD metrics "droop" 1) 0 1
  let brightness := getD metrics "brightness" 0
  let lifetime := getD metrics "lifetime" 0
  let leakage := getD metrics "leakage" 0
  let auger := getD metrics "auger_rate" (getD metrics "auger" 0)
  let metric_penalty := getD metrics "penalty" 0
  let delta_params_norm := getD metrics "delta_params_norm" 0
  let boundary_penalty := getD metrics "boundary_penalty" 0
  let eml_thin_penalty := getD metrics "eml_thin_penalty" 0
  let V_drive := getD metrics "V_drive" 0
  let constraint_penalty := constraintPenalty violation
  let total_penalty := metric_penalty + constraint_penalty
  let pen_soft := log1p (max 0 total_penalty)
  let jump_pen := delta_params_norm ^ 2
  let overlap_s := Real.sqrt (overlap + 1e-8)
  let balance_s := Real.sqrt (balance + 1e-8)
  let eqe_s := log1pNorm eqe 30
  let gate_floor := (0.25 : ℝ)
  let gate_overlap := gate_floor + (1 - gate_floor) * overlap_s
  let gate_balance := gate_floor + (1 - gate_floor) * balance_s
  let core := eqe_s * gate_overlap * gate_balance
  let bri_s := log1pNorm brightness 1500
  let life_s := log1pNorm lifetime 2000
  let leak_s := log1pNorm leakage 1
  let auger_s := log1pNorm auger 1
  let target_overlap := (0.45 : ℝ)
  let target_balance := (0.4 : ℝ)
  let low_overlap_pen := max 0 (target_overlap - overlap) ^ 2
  let low_balance_pen := max 0 (target_balance - balance) ^ 2
  let droop_floor := (0.6 : ℝ)
  let low_droop_pen := max 0 (droop_floor - droop) ^ 2
  let life_floor := (800 : ℝ)
  let low_life_pen := max 0 ((life_floor - lifetime) / life_floor) ^ 2
  let B_min := (700 : ℝ)
  let B_max := (1800 : ℝ)
  let bri_low_pen := max 0 ((B_min - brightness) / B_min) ^ 2
  let bri_high_pen := max 0 ((brightness - B_max) / B_max) ^ 2
  let v_high := (4.2 : ℝ)
  let v_high_pen := max 0 ((V_drive - v_high) / v_high) ^ 2
  let helper :=
    0.55 * overlap_s + 0.35 * balance_s + 0.1 * bri_s + 0.18 * life_s
      - 0.25 * leak_s - 0.25 * auger_s + 0.03 * droop
  let w_core := (3 : ℝ)
  let w_helper := (1 : ℝ)
  let w_pen := (1.2 : ℝ)
  let w_jump := (0.1 : ℝ)
  let w_bound := (1.2 : ℝ)
  let w_eml_thin := (1.2 : ℝ)
  let w_low_overlap := (3 : ℝ)
  let w_low_balance := (1.5 : ℝ)
  let w_low_droop := (4 : ℝ)
  let w_low_life := (3 : ℝ)
  let w_bri_window := (1.4 : ℝ)
  let w_v_high := (0.4 : ℝ)
  let U :=
    w_core * core + w_helper * helper
      - w_low_overlap * low_overlap_pen
      - w_low_balance * low_balance_pen
      - w_low_droop * low_droop_pen
      - w_low_life * low_life_pen
      - w_bri_window * (bri_low_pen + bri_high_pen)
      - w_pen * pen_soft
      - w_jump * jump_pen
      - w_bound * boundary_penalty
      - w_eml_thin * eml_thin_penalty
      - w_v_high * v_high_pen
  let dU := match uPrev with
    | none => (0 : ℝ)
    | some u0 => U - u0
  let bonus :=
    (if (0.7 : ℝ) < overlap then (0.05 : ℝ) else 0)
      + (if (0.8 : ℝ) < balance then (0.03 : ℝ) else 0)
      + (if (900 : ℝ) < lifetime then (0.05 : ℝ) else 0)
  let raw := U + 0.18 * dU + bonus
  let reward := 10 * Real.tanh (raw / 3.2)
  (reward,
   { U := U, dU := dU, bonus := bonus, raw := raw, reward := reward,
     eqe := eqe, overlap := overlap, inj_balance := balance, droop := droop,
     brightness := brightness, leakage := leakage, auger_rate := auger,
     lifetime := lifetime, V_drive := V_drive,
     delta_params_norm := delta_params_norm,
     boundary_penalty := boundary_penalty,
     eml_thin_penalty := eml_thin_penalty, pen_soft := pen_soft,
     hinge := { target_overlap := target_overlap,
                target_balance := target_balance,
                droop_floor := droop_floor, life_floor := life_floor,
                low_overlap_pen := low_overlap_pen,
                low_balance_pen := low_balance_pen,
                low_droop_pen := low_droop_pen,
                low_life_pen := low_life_pen,
                bri_low_pen := bri_low_pen,
                bri_high_pen := bri_high_pen } })

/-! ## `surrogate_sim.py` -/

/-- Embeds `_sigmoid` from `surrogate_sim.py`. -/
def sigmoid (x : ℝ) : ℝ := 1 / (1 + Real.exp (-x))

/-- Embeds `SurrogateSim.evaluate` (v2).  Only ever called on the output of
`to_real`, which carries all thirteen keys, so Python's `params[k]`
(`KeyError` on a missing key, unreachable here) is modelled with default 0. -/
def surrogateEvaluate (params : List (String × ℝ)) : List (String × ℝ) :=
  let t_eml := getD params "t_EML_nm" 0
  let phi_h := getD params "phi_HTL_eV" 0
  let phi_e := getD params "phi_ETL_eV" 0
  let p_d := getD params "p_doping_HTL" 0
  let n_d := getD params "n_doping_ETL" 0
  let ps_r := getD params "ps_radius_nm" 0
  let ps_ff := getD params "ps_fill_frac" 0
  let sl_t := getD params "sl_thickness_nm" 0
  let sl_gap := getD params "sl_gap_um" 0
  let qd_cov := getD params "qd_coverage" 0
  let V := getD params "V_drive" 0
  let barrier_mismatch := |(phi_h - 5.2) - (4.1 - phi_e)|
  let inj_balance := Real.exp (-(barrier_mismatch ^ 2) / 0.06)
  let inj_boost := sigmoid (8 * (p_d + n_d - 0.15))
  let overlap := Real.exp (-((t_eml - 18) ^ 2) / (2 * 7 ^ 2))
  let mie_gain := 1 + 0.6 * Real.exp (-((ps_r - 120) ^ 2) / (2 * 55 ^ 2))
  let cov_gain := 1 + 0.7 * clip (ps_ff / 0.3) 0 1
  let sl_gain := 1 + 0.4 * Real.exp (-((sl_t - 15) ^ 2) / (2 * 6 ^ 2))
  let gap_gain := 1 + 0.3 * Real.exp (-((sl_gap - 1.2) ^ 2) / (2 * 0.8 ^ 2))
  let qd_gain := 0.6 + 0.4 * qd_cov
  let outcoupling := mie_gain * cov_gain * sl_gain * gap_gain * qd_gain
  let drive := max 0 (V - 2.2)
  let V_term := 1 - Real.exp (-drive / 1.1)
  let brightness :=
    250 + 1600 * V_term * (0.55 + 0.45 * inj_boost) * (0.55 + 0.45 * overlap)
  let leakage :=
    max 0 (0.05 + 0.55 * (p_d + n_d) + 0.45 * (1 - inj_balance)
      + 0.3 * max 0 (ps_ff - 0.3))
  let auger_rate := (brightness / 1400) ^ 2 * max 0 (V - 3.2)
  let droop := pyClamp (1 / (1 + (brightness / 1600) ^ 2 + 0.6 * auger_rate)) 0.05 1
  let penalty :=
    (if 0.45 < ps_ff then (ps_ff - 0.45) * 6 else 0)
      + (if t_eml < 12 then (12 - t_eml) * 0.25 else 0)
      + (if sl_gap < 0.5 then (0.5 - sl_gap) * 2.5 else 0)
  let eqe_raw := 22 * inj_balance * (0.55 + 0.45 * inj_boost) * overlap * outcoupling * droop
  let eqe := 40 * Real.tanh (eqe_raw / 40)
  let lifetime :=
    pyClamp (2000 / (1 + 2.5 * leakage + 3.5 * auger_rate
      + 0.2 * max 0 (V - 3) ^ 2 + 0.8 * (p_d + n_d))) 50 2000
  [("EQE", eqe),
   ("recomb_overlap", overlap),
   ("penalty", penalty),
   ("inj_balance", inj_balance),
   ("outcoupling", outcoupling),
   ("droop", droop),
   ("brightness", brightness),
   ("leakage", leakage),
   ("auger_rate", auger_rate),
   ("lifetime", lifetime)]

/-! ## `rl_env.py` -/

/-- Modelled from the spec: the per-episode seeded pseudo-random generator
(`np.random.default_rng`, external library code) is modelled as a 64-bit
linear-congruential state update; the spec only requires that it be
explicitly seedable and reproducible. -/
def lcg (s : ℕ) : ℕ := (6364136223846793005 * s + 1442695040888963407) % 2 ^ 64

/-- Modelled from the spec: one `rng.uniform(-1, 1)` draw — the next
generator output scaled into [-1, 1). -/
def lcgUnit (s : ℕ) : ℝ := -1 + 2 * ((lcg s : ℝ) / 2 ^ 64)

/-- Draw `n` uniform values from the generator, returning the advanced
generator state. -/
def drawUniform : ℕ → ℕ → List ℝ × ℕ
  | 0, s => ([], s)
  | n + 1, s =>
    let v := lcgUnit s
    let rest := drawUniform n (lcg s)
    (v :: rest.1, rest.2)

/-- Embeds `ParameterSpace.sample_normalized`: draw each of the `dim` components
independently and uniformly from [-1, 1]. -/
def sample_normalized (s : ℕ) : List ℝ × ℕ :=
  drawUniform qledParams.length s

/-- The configuration surface of `QLEDRLEnv.__init__` used by the core loop
(`include_metrics_in_obs` is fixed to its default `False`; `metrics_dim` is 0,
so observations are exactly the normalized vector either way). -/
structure EnvConfig where
  maxSteps : ℕ
  actionScale : ℝ

/-- The mutable state of a `QLEDRLEnv` instance: step counter, current
normalized vector (`None` before the first reset), last metrics dict, and the
shaping memory `_U_prev` / `_prev_x`, plus the generator state. -/
structure EnvState where
  stepCount : ℕ
  x : Option (List ℝ)
  lastMetrics : Option (List (String × ℝ))
  uPrev : Option ℝ
  prevX : Option (List ℝ)
  rng : ℕ

/-- Embeds `QLEDRLEnv.__init__`: step counter 0, no vector, no metrics, empty
shaping memory, seeded generator. -/
def initState (seed : ℕ) : EnvState :=
  { stepCount := 0, x := none, lastMetrics := none, uPrev := none,
    prevX := none, rng := seed }

/-- A simulator plugged into the environment
(`SimulatorInterface.evaluate`). -/
def Simulator : Type := List (String × ℝ) → List (String × ℝ)

/-- Embeds `QLEDRLEnv.reset`: reseed if a seed is given, zero the step counter, take
the initial vector from `options["init_params"]` via `to_normalized` (whose
`KeyError` propagates as `none`) or sample it, evaluate the simulator once,
clear `_U_prev` and set `_prev_x` to a copy of the fresh vector.  Returns the
new state, the observation, and the info dict's `params` and `metrics`. -/
def reset (sim : Simulator) (st : EnvState) (seed : Option ℕ)
    (options : Option (List (String × ℝ))) :
    Option (EnvState × List ℝ × List (String × ℝ) × List (String × ℝ)) :=
  let rng0 := seed.getD st.rng
  match options with
  | some initParams =>
    match to_normalized initParams with
    | none => none
    | some x =>
      let params_real := to_real x
      let metrics := sim params_real
      some ({ stepCount := 0, x := some x, lastMetrics := some metrics,
              uPrev := none, prevX := some x, rng := rng0 },
            x, params_real, metrics)
  | none =>
    let draw := sample_normalized rng0
    let x := draw.1
    let params_real := to_real x
    let metrics := sim params_real
    some ({ stepCount := 0, x := some x, lastMetrics := some metrics,
            uPrev := none, prevX := some x, rng := draw.2 },
          x, params_real, metrics)

/-- The per-step output of `QLEDRLEnv.step`: observation, reward, the two
termination flags, and the info bundle (`params`, `metrics`, `violation` and
the flattened reward diagnostics). -/
structure StepOut where
  obs : List ℝ
  reward : ℝ
  terminated : Prop
  truncated : Prop
  params : List (String × ℝ)
  metrics : List (String × ℝ)
  violation : List (String × ℝ)
  rinfo : RewardInfo

/-- Embeds `QLEDRLEnv.step`.  Here `none` models the `TypeError` Python raises when `step`
is called before any reset (`self.x` is still `None`); there is no other
call-sequence guard in the code.  The shaping entries the environment writes
into the metrics dict before calling `compute_reward` are modelled by
prepending them (first binding wins); `U_prev` is passed to `compute_reward`
separately as the optional previous utility. -/
def step (cfg : EnvConfig) (sim : Simulator) (st : EnvState)
    (action : List ℝ) : Option (EnvState × StepOut) :=
  match st.x with
  | none => none
  | some x0 =>
    let stepCount := st.stepCount + 1
    let prev_x := st.prevX
    let uPrev := st.uPrev
    let a := action.map (fun ai => clip ai (-1) 1)
    let x := List.zipWith (fun xi ai => clip (xi + cfg.actionScale * ai) (-1) 1) x0 a
    let params_real := to_real x
    let violation := constraint_violation params_real
    let metrics := sim params_real
    let delta_params_norm :=
      match prev_x with
      | none => euclNorm x
      | some px => euclNorm (List.zipWith (fun u v => u - v) x px)
    let margin := (0.88 : ℝ)
    let boundary_penalty :=
      listMean (x.map (fun xi => (max 0 (|xi| - margin) / (1 - margin)) ^ 4))
    let t_eml := getD params_real "t_EML_nm" 0
    let eml_floor := (15 : ℝ)
    let eml_thin_penalty := max 0 ((eml_floor - t_eml) / eml_floor) ^ 2
    let metrics' :=
      ("delta_params_norm", delta_params_norm)
        :: ("boundary_penalty", boundary_penalty)
        :: ("eml_thin_penalty", eml_thin_penalty)
        :: ("V_drive", getD params_real "V_drive" 0)
        :: metrics
    let rr := compute_reward metrics' uPrev (Violation.dict violation)
    let terminated := is_hard_invalid (Violation.dict violation)
    let truncated := cfg.maxSteps ≤ stepCount
    some ({ stepCount := stepCount, x := some x, lastMetrics := some metrics',
            uPrev := some rr.2.U, prevX := some x, rng := st.rng },
          { obs := x, reward := rr.1, terminated := terminated,
            truncated := truncated, params := params_real,
            metrics := metrics', violation := violation, rinfo := rr.2 })

/-- Drive an episode through a list of actions, collecting every step
output; `none` models an exception escaping. -/
def runSteps (cfg : EnvConfig) (sim : Simulator) :
    EnvState → List (List ℝ) → Option (List StepOut)
  | _, [] => some []
  | st, a :: rest =>
    match step cfg sim st a with
    | none => none
    | some (st', out) => (runSteps cfg sim st' rest).map (out :: ·)

/-- A full episode: construct the environment, reset with a seed, then apply
the given action sequence; the trace holds the reset observation and info
and every step's output. -/
def runEpisode (cfg : EnvConfig) (sim : Simulator) (seed : ℕ)
    (options : Option (List (String × ℝ))) (actions : List (List ℝ)) :
    Option ((List ℝ × List (String × ℝ) × List (String × ℝ)) × List StepOut) :=
  match reset sim (initState seed) (some seed) options with
  | none => none
  | some (st, obs0, params0, metrics0) =>
    (runSteps cfg sim st actions).map ((obs0, params0, metrics0), ·)

/-! ## Analytic helper lemmas -/

theorem tanh_eq_one_sub (x : ℝ) : Real.tanh x = 1 - 2 / (Real.exp (2 * x) + 1) := by
  rw [Real.tanh_eq_sinh_div_cosh, Real.sinh_eq, Real.cosh_eq]
  have h1 : (0:ℝ) < Real.exp x := Real.exp_pos x
  have h3 : Real.exp x * Real.exp x = Real.exp (2 * x) := by
    rw [← Real.exp_add]; ring_nf
  have h5 : (0:ℝ) < Real.exp (2 * x) + 1 := by positivity
  have h6 : (0:ℝ) < Real.exp x + (Real.exp x)⁻¹ := by positivity
  rw [Real.exp_neg x, div_div_div_cancel_right₀]
  · rw [div_eq_iff (by positivity)]
    field_simp
    nlinarith [h3]
  · norm_num

theorem tanh_strictMono : StrictMono Real.tanh := by
  intro a b hab
  rw [tanh_eq_one_sub, tanh_eq_one_sub]
  have he : Real.exp (2 * a) < Real.exp (2 * b) := Real.exp_lt_exp.mpr (by linarith)
  have ha : (0:ℝ) < Real.exp (2 * a) + 1 := by positivity
  have : 2 / (Real.exp (2 * b) + 1) < 2 / (Real.exp (2 * a) + 1) := by
    apply div_lt_div_of_pos_left (by norm_num) ha (by linarith)
  linarith

theorem tanh_le_tanh {a b : ℝ} (h : a ≤ b) : Real.tanh a ≤ Real.tanh b :=
  tanh_strictMono.monotone h

theorem tanh_lt_one (x : ℝ) : Real.tanh x < 1 := by
  rw [tanh_eq_one_sub]
  have : (0:ℝ) < 2 / (Real.exp (2 * x) + 1) := by positivity
  linarith

theorem neg_one_lt_tanh (x : ℝ) : -1 < Real.tanh x := by
  rw [tanh_eq_one_sub]
  have h : (0:ℝ) < Real.exp (2 * x) + 1 := by positivity
  have : 2 / (Real.exp (2 * x) + 1) < 2 := by
    rw [div_lt_iff₀ h]
    nlinarith [Real.exp_pos (2 * x)]
  linarith

/-- Claim C1: for every metrics mapping (whose values, as real numbers, are
finite) and every constraint violation — dict or scalar — `compute_reward`
returns a scalar reward lying within [-10, 10]. -/
theorem compute_reward_bounded (metrics : List (String × ℝ)) (uPrev : Option ℝ)
    (violation : Violation) :
    -10 ≤ (compute_reward metrics uPrev violation).1 ∧
      (compute_reward metrics uPrev violation).1 ≤ 10 := by
  have hfst : (compute_reward metrics uPrev violation).1 =
      10 * Real.tanh ((compute_reward metrics uPrev violation).2.raw / 3.2) := rfl
  rw [hfst]
  suffices h : ∀ r : ℝ, -10 ≤ 10 * Real.tanh r ∧ 10 * Real.tanh r ≤ 10 by
    exact h _
  intro r
  constructor
  · nlinarith [neg_one_lt_tanh r]
  · nlinarith [tanh_lt_one r]

/-! ## ParameterSpace claims -/

theorem mapStrict_eq_none {f : ParamDef → Option ℝ} :
    ∀ {ps : List ParamDef}, ∀ p ∈ ps, f p = none → mapStrict f ps = none := by
  intro ps
  induction ps with
  | nil => intro p hp; exact absurd hp (List.not_mem_nil p)
  | cons q qs ih =>
    intro p hp hfp
    rcases List.mem_cons.mp hp with h | h
    · subst h
      simp [mapStrict, hfp]
    · have : mapStrict f qs = none := ih p h hfp
      cases hq : f q <;> simp [mapStrict, hq, this]

/-- Claim C4: `to_normalized` on a mapping missing at least one declared
dimension name fails (the `KeyError`, modelled as `none`) and never silently
substitutes a default value. -/
theorem to_normalized_missing_key (d : List (String × ℝ))
    (h : ∃ p ∈ qledParams, lookupKey d p.name = none) :
    to_normalized d = none := by
  obtain ⟨p, hp, hmiss⟩ := h
  have : toNormalizedOne d p = none := by
    simp [toNormalizedOne, hmiss]
  exact mapStrict_eq_none p hp this

/-- Witness for C4 at the empty mapping. -/
theorem to_normalized_missing_key_witness : to_normalized [] = none :=
  to_normalized_missing_key []
    ⟨⟨"t_HTL_nm", 10, 60⟩, List.Mem.head _, rfl⟩

theorem roundtrip_one (p : ParamDef) (v : ℝ) (h1 : p.low < v) (h2 : v < p.high) :
    |(toRealOne p
        (2 * ((min (max v p.low) p.high - p.low) / (p.high - p.low + 1e-12)) - 1)).2
      - v| < 1e-12 := by
  have heps : (0:ℝ) < 1e-12 := by norm_num
  have hlh : p.low < p.high := lt_trans h1 h2
  have hD : (0:ℝ) < p.high - p.low + 1e-12 := by linarith
  have hmax : max v p.low = v := max_eq_left (le_of_lt h1)
  have hmin : min v p.high = v := min_eq_left (le_of_lt h2)
  have hu0 : 0 < (v - p.low) / (p.high - p.low + 1e-12) := by
    apply div_pos (by linarith) hD
  have hu1 : (v - p.low) / (p.high - p.low + 1e-12) < 1 := by
    rw [div_lt_one hD]; linarith
  set u := (v - p.low) / (p.high - p.low + 1e-12) with hu
  have hclip : clip (2 * u - 1) (-1) 1 = 2 * u - 1 := by
    unfold clip
    rw [max_eq_right (by linarith), min_eq_right (by linarith)]
  simp only [toRealOne, hmax, hmin, hclip]
  have hval : p.low + (2 * u - 1 + 1) / 2 * (p.high - p.low) - v
      = -((v - p.low) * 1e-12 / (p.high - p.low + 1e-12)) := by
    rw [hu]; field_simp; ring
  rw [hval, abs_neg, abs_of_pos (div_pos (mul_pos (by linarith) heps) hD)]
  rw [div_lt_iff₀ hD]
  nlinarith [heps, hD]

theorem roundtrip_list :
    ∀ (ps : List ParamDef) (d : List (String × ℝ)) (x : List ℝ),
    mapStrict (toNormalizedOne d) ps = some x →
    (ps.map ParamDef.name).Nodup →
    ∀ p ∈ ps, ∀ v : ℝ, lookupKey d p.name = some v → p.low < v → v < p.high →
    |getD (List.zipWith toRealOne ps x) p.name 0 - v| < 1e-12 := by
  intro ps
  induction ps with
  | nil => intro d x _ _ p hp; exact absurd hp (List.not_mem_nil p)
  | cons q qs ih =>
    intro d x hmap hnodup p hp v hv h1 h2
    rcases hq : toNormalizedOne d q with _ | v0
    · rw [mapStrict, hq] at hmap
      exact absurd hmap (by simp)
    rcases hqs : mapStrict (toNormalizedOne d) qs with _ | xs
    · rw [mapStrict, hq, hqs] at hmap
      exact absurd hmap (by simp)
    rw [mapStrict, hq, hqs] at hmap
    have hx : x = v0 :: xs := by
      simpa using hmap.symm
    subst hx
    rcases List.mem_cons.mp hp with hpq | hptail
    · subst hpq
      obtain ⟨w, hw, hval⟩ := Option.map_eq_some'.mp hq
      rw [hv] at hw
      have hwv : w = v := by
        injection hw with h
        exact h.symm
      subst hwv
      have hval' :
          2 * ((min (max w p.low) p.high - p.low) / (p.high - p.low + 1e-12)) - 1
            = v0 := hval
      have hhead : (toRealOne p v0).1 = p.name := rfl
      rw [List.zipWith_cons_cons, getD, hhead, if_pos rfl]
      rw [← hval']
      exact roundtrip_one p w h1 h2
    · have hne : q.name ≠ p.name := by
        intro heq
        have hqn : q.name ∉ qs.map ParamDef.name :=
          (List.nodup_cons.mp hnodup).1
        exact hqn (heq ▸ List.mem_map_of_mem ParamDef.name hptail)
      rw [List.zipWith_cons_cons, getD]
      have hhead : (toRealOne q v0).1 = q.name := rfl
      rw [hhead, if_neg hne]
      exact ih d xs hqs (List.nodup_cons.mp hnodup).2 p hptail v hv h1 h2

/-- Claim C3: composing `to_normalized` with `to_real` returns, at every
declared dimension name whose supplied physical value lies strictly inside
[low, high], that value up to a floating-point tolerance (the error is below
the `1e-12` denominator guard of `to_normalized`). -/
theorem to_real_to_normalized_roundtrip (p : ParamDef) (hp : p ∈ qledParams)
    (d : List (String × ℝ)) (x : List ℝ) (hx : to_normalized d = some x)
    (v : ℝ) (hv : lookupKey d p.name = some v)
    (h1 : p.low < v) (h2 : v < p.high) :
    |getD (to_real x) p.name 0 - v| < 1e-12 := by
  have hnodup : (qledParams.map ParamDef.name).Nodup := by decide
  exact roundtrip_list qledParams d x hx hnodup p hp v hv h1 h2

/-- A concrete full physical-parameter mapping used by witnesses. -/
def w3Dict : List (String × ℝ) :=
  [("t_HTL_nm", 30), ("t_EML_nm", 20), ("t_ETL_nm", 30),
   ("phi_HTL_eV", 5), ("phi_ETL_eV", 4), ("p_doping_HTL", 0.1),
   ("n_doping_ETL", 0.1), ("ps_radius_nm", 100), ("ps_fill_frac", 0.2),
   ("sl_thickness_nm", 15), ("sl_gap_um", 1), ("qd_coverage", 0.5),
   ("V_drive", 3)]

/-- The normalized vector produced for `w3Dict`. -/
def w3Vec : List ℝ := (to_normalized w3Dict).getD []

/-- Witness for C3 at the dimension `t_HTL_nm` and the interior value 30. -/
theorem to_real_to_normalized_roundtrip_witness :
    |getD (to_real w3Vec) "t_HTL_nm" 0 - 30| < 1e-12 :=
  to_real_to_normalized_roundtrip ⟨"t_HTL_nm", 10, 60⟩ (List.Mem.head _)
    w3Dict w3Vec rfl 30 rfl (by norm_num) (by norm_num)

/-! ## Episode lifecycle (C2) -/

/-- Claim C2: a successful `step` whose violation entries all stay at or
below 20 is never `terminated`; the `step` whose counter reaches
`max_steps` is `truncated`; and a `step` whose constraint evaluation produces
an entry exceeding 20 is `terminated` on that very call. -/
theorem episode_lifecycle (cfg : EnvConfig) (sim : Simulator) (st : EnvState)
    (a : List ℝ) (st' : EnvState) (out : StepOut)
    (h : step cfg sim st a = some (st', out)) :
    (st'.stepCount = cfg.maxSteps → out.truncated) ∧
    ((∀ e ∈ out.violation, e.2 ≤ 20) → ¬ out.terminated) ∧
    ((∃ e ∈ out.violation, 20 < e.2) → out.terminated) := by
  cases hx : st.x with
  | none => simp [step, hx] at h
  | some x0 =>
    simp only [step, hx, Option.some.injEq] at h
    rw [Prod.ext_iff] at h
    obtain ⟨h1, h2⟩ := h
    subst h1
    subst h2
    refine ⟨?_, ?_, ?_⟩
    · intro heq
      exact le_of_eq heq.symm
    · intro hall hterm
      obtain ⟨e, he, hgt⟩ := hterm
      exact absurd hgt (not_lt.mpr (hall e he))
    · intro hex
      exact hex

/-- Default values used only to extract components from an `Option` result
at concrete witness inputs. -/
instance : Inhabited HingeInfo := ⟨⟨0, 0, 0, 0, 0, 0, 0, 0, 0, 0⟩⟩

instance : Inhabited RewardInfo :=
  ⟨⟨0, 0, 0, 0, 0, 0, 0, 0, 0, 0, 0, 0, 0, 0, 0, 0, 0, 0, default⟩⟩

instance : Inhabited StepOut := ⟨⟨[], 0, False, False, [], [], [], default⟩⟩

instance : Inhabited EnvState := ⟨initState 0⟩

/-- A concrete environment configuration with `max_steps = 1`. -/
def w2Cfg : EnvConfig := ⟨1, 0.05⟩

/-- A trivial simulator used where metric values are irrelevant. -/
def w2Sim : Simulator := fun _ => []

/-- A concrete mid-episode state whose normalized vector is the origin. -/
def w2St : EnvState :=
  { stepCount := 0,
    x := some [0, 0, 0, 0, 0, 0, 0, 0, 0, 0, 0, 0, 0],
    lastMetrics := none, uPrev := none, prevX := none, rng := 0 }

/-- The zero action. -/
def w2Act : List ℝ := [0, 0, 0, 0, 0, 0, 0, 0, 0, 0, 0, 0, 0]

/-- The state and step output produced by one concrete `step`. -/
def w2Res : EnvState × StepOut := (step w2Cfg w2Sim w2St w2Act).getD default

/-- Witness for C2 at a concrete step: the counter reaches `max_steps = 1`,
so the call is truncated and (all violation entries being at most 20) not
terminated. -/
theorem episode_lifecycle_witness : w2Res.2.truncated ∧ ¬ w2Res.2.terminated := by
  have h : step w2Cfg w2Sim w2St w2Act = some (w2Res.1, w2Res.2) := rfl
  obtain ⟨h1, h2, _⟩ := episode_lifecycle w2Cfg w2Sim w2St w2Act w2Res.1 w2Res.2 h
  refine ⟨h1 rfl, h2 ?_⟩
  intro e he
  simp only [w2Res, w2Cfg, w2Sim, w2St, w2Act, step, Option.getD_some,
    List.map_cons, List.map_nil, List.zipWith_cons_cons, List.zipWith_nil_right,
    constraint_violation, List.mem_cons, List.not_mem_nil, or_false] at he
  rcases he with rfl | rfl | rfl | rfl <;>
  · simp only [to_real, toRealOne, qledParams, getD, clip, String.reduceEq,
      reduceIte, List.zipWith_cons_cons, List.zipWith_nil_right]
    norm_num [min_def, max_def]
/-! ## Reset state and call sequencing (C6, C7) -/

/-- Claim C6 (amended): immediately after every successful `reset` the step
counter is 0 and the previous-utility value is null — but the
previous-normalized-vector memory is not null: `reset` stores a copy of the
freshly chosen vector in it (`self._prev_x = self.x.copy()`). -/
theorem reset_state (sim : Simulator) (st : EnvState) (seed : Option ℕ)
    (options : Option (List (String × ℝ))) (st' : EnvState) (obs : List ℝ)
    (params metrics : List (String × ℝ))
    (h : reset sim st seed options = some (st', obs, params, metrics)) :
    st'.stepCount = 0 ∧ st'.uPrev = none ∧
      st'.x = some obs ∧ st'.prevX = some obs := by
  cases hop : options with
  | none =>
    simp only [reset, hop, Option.some.injEq, Prod.mk.injEq] at h
    obtain ⟨h1, h2, -⟩ := h
    subst h1
    subst h2
    exact ⟨rfl, rfl, rfl, rfl⟩
  | some initParams =>
    simp only [reset, hop] at h
    cases hn : to_normalized initParams with
    | none => rw [hn] at h; simp at h
    | some x =>
      rw [hn] at h
      simp only [Option.some.injEq, Prod.mk.injEq] at h
      obtain ⟨h1, h2, -⟩ := h
      subst h1
      subst h2
      exact ⟨rfl, rfl, rfl, rfl⟩

/-- The concrete result of a seeded `reset` used for C6. -/
def w6Res : EnvState × List ℝ × List (String × ℝ) × List (String × ℝ) :=
  (reset w2Sim (initState 0) (some 0) none).getD default

/-- Counterexample for C6 as originally stated: immediately after a concrete
`reset`, the previous-normalized-vector memory is already non-null. -/
theorem reset_prevx_counterexample : w6Res.1.prevX ≠ none := by
  have h : w6Res.1.prevX.isSome = true := rfl
  intro hc
  rw [hc] at h
  simp at h

/-- Witness for the amended C6 at a concrete seeded reset. -/
theorem reset_state_witness :
    w6Res.1.stepCount = 0 ∧ w6Res.1.uPrev = none ∧
      w6Res.1.x = some w6Res.2.1 ∧ w6Res.1.prevX = some w6Res.2.1 := by
  have h : reset w2Sim (initState 0) (some 0) none
      = some (w6Res.1, w6Res.2.1, w6Res.2.2.1, w6Res.2.2.2) := rfl
  exact reset_state w2Sim (initState 0) (some 0) none
    w6Res.1 w6Res.2.1 w6Res.2.2.1 w6Res.2.2.2 h

/-- Claim C7 (amended): calling `step` before any reset fails (the state
holds no vector, so Python's `self.x + ...` raises a `TypeError`); but
calling `step` again after a step returned `terminated` or `truncated`,
without an intervening reset, does not fail — whenever the state holds a
vector, `step` silently returns a result computed from that (possibly stale)
episode state. -/
theorem step_call_sequence (cfg : EnvConfig) (sim : Simulator) (a : List ℝ) :
    (∀ seed : ℕ, step cfg sim (initState seed) a = none) ∧
    (∀ st : EnvState, st.x ≠ none → (step cfg sim st a).isSome = true) := by
  constructor
  · intro seed
    rfl
  · intro st hx
    cases hxe : st.x with
    | none => exact absurd hxe hx
    | some x0 => simp [step, hxe]

/-- Counterexample for C7 as originally stated: a concrete step that returned
`truncated = true`, after which `step` (with no reset in between) still
returns a result instead of failing. -/
theorem step_after_truncation_counterexample :
    w2Res.2.truncated ∧ (step w2Cfg w2Sim w2Res.1 w2Act).isSome = true := by
  constructor
  · exact Nat.le_refl 1
  · rfl

/-- Witness for the amended C7: before any reset `step` errors out, while on
a state holding a vector it succeeds. -/
theorem step_call_sequence_witness :
    step w2Cfg w2Sim (initState 5) w2Act = none ∧
      (step w2Cfg w2Sim w2St w2Act).isSome = true := by
  obtain ⟨h1, h2⟩ := step_call_sequence w2Cfg w2Sim w2Act
  exact ⟨h1 5, h2 w2St (by simp [w2St])⟩

/-! ## Normalization range (C8) and determinism (C9) -/

theorem clip_mem_unit (x : ℝ) : -1 ≤ clip x (-1) 1 ∧ clip x (-1) 1 ≤ 1 := by
  unfold clip
  constructor
  · exact le_min (by norm_num) (le_max_left _ _)
  · exact min_le_left _ _

theorem mem_zipWith {α β γ : Type} {f : α → β → γ} :
    ∀ {l1 : List α} {l2 : List β} {c : γ},
      c ∈ List.zipWith f l1 l2 → ∃ a b, c = f a b := by
  intro l1
  induction l1 with
  | nil => intro l2 c hc; simp at hc
  | cons a as ih =>
    intro l2 c hc
    cases l2 with
    | nil => simp at hc
    | cons b bs =>
      rw [List.zipWith_cons_cons] at hc
      rcases List.mem_cons.mp hc with h | h
      · exact ⟨a, b, h⟩
      · exact ih h

theorem lcgUnit_mem (s : ℕ) : -1 ≤ lcgUnit s ∧ lcgUnit s ≤ 1 := by
  have hlt : lcg s < 2 ^ 64 := Nat.mod_lt _ (by norm_num)
  have h0 : (0:ℝ) ≤ (lcg s : ℝ) := Nat.cast_nonneg _
  have h1 : (lcg s : ℝ) < (2:ℝ) ^ 64 := by
    calc (lcg s : ℝ) < ((2 ^ 64 : ℕ) : ℝ) := Nat.cast_lt.mpr hlt
    _ = (2:ℝ) ^ 64 := by push_cast; ring
  have hp : (0:ℝ) < (2:ℝ) ^ 64 := by positivity
  have hd0 : 0 ≤ (lcg s : ℝ) / 2 ^ 64 := div_nonneg h0 (le_of_lt hp)
  have hd1 : (lcg s : ℝ) / 2 ^ 64 < 1 := (div_lt_one hp).mpr h1
  unfold lcgUnit
  constructor <;> linarith

theorem drawUniform_mem :
    ∀ (n s : ℕ), ∀ v ∈ (drawUniform n s).1, -1 ≤ v ∧ v ≤ 1 := by
  intro n
  induction n with
  | zero => intro s v hv; simp [drawUniform] at hv
  | succ m ih =>
    intro s v hv
    simp only [drawUniform] at hv
    rcases List.mem_cons.mp hv with h | h
    · subst h; exact lcgUnit_mem s
    · exact ih (lcg s) v h

/-- Claim C8: every component of a `sample_normalized` draw, and every
component of the episode's normalized vector (the observation) after any
`step` call with any real-valued action, lies in [-1, 1]. -/
theorem normalized_range_invariant :
    (∀ s : ℕ, ∀ v ∈ (sample_normalized s).1, -1 ≤ v ∧ v ≤ 1) ∧
    (∀ (cfg : EnvConfig) (sim : Simulator) (st : EnvState) (a : List ℝ)
        (st' : EnvState) (out : StepOut), step cfg sim st a = some (st', out) →
      ∀ v ∈ out.obs, -1 ≤ v ∧ v ≤ 1) := by
  constructor
  · intro s v hv
    exact drawUniform_mem qledParams.length s v hv
  · intro cfg sim st a st' out h v hv
    cases hx : st.x with
    | none => simp [step, hx] at h
    | some x0 =>
      simp only [step, hx, Option.some.injEq] at h
      rw [Prod.ext_iff] at h
      obtain ⟨h1, h2⟩ := h
      subst h1
      subst h2
      obtain ⟨xi, ai, rfl⟩ := mem_zipWith hv
      exact clip_mem_unit _

/-- Witness for C8 at a concrete seed and a concrete step. -/
theorem normalized_range_invariant_witness :
    (∀ v ∈ (sample_normalized 0).1, -1 ≤ v ∧ v ≤ 1) ∧
    (∀ v ∈ w2Res.2.obs, -1 ≤ v ∧ v ≤ 1) := by
  obtain ⟨hs, hstep⟩ := normalized_range_invariant
  refine ⟨hs 0, hstep w2Cfg w2Sim w2St w2Act w2Res.1 w2Res.2 rfl⟩

/-- Claim C9: two episodes reset with the same seed and driven by the same
action sequence, using the deterministic `SurrogateSim` evaluator, produce
identical traces (observations, rewards and info bundles); the embedding
keeps all episode state explicit, so the trace is a function of the seed and
the actions alone. -/
theorem episode_determinism (cfg : EnvConfig) (s₁ s₂ : ℕ)
    (acts₁ acts₂ : List (List ℝ)) (hs : s₁ = s₂) (ha : acts₁ = acts₂) :
    runEpisode cfg surrogateEvaluate s₁ none acts₁
      = runEpisode cfg surrogateEvaluate s₂ none acts₂ := by
  subst hs
  subst ha
  rfl

/-- Witness for C9 at seed 0 with a one-step action sequence. -/
theorem episode_determinism_witness :
    runEpisode w2Cfg surrogateEvaluate 0 none [w2Act]
      = runEpisode w2Cfg surrogateEvaluate 0 none [w2Act] :=
  episode_determinism w2Cfg 0 0 [w2Act] [w2Act] rfl rfl

/-! ## Reward monotonicity (C5) -/

theorem log1p_le_log1p {a b : ℝ} (ha : 0 ≤ a) (h : a ≤ b) : log1p a ≤ log1p b := by
  unfold log1p
  exact (Real.log_le_log_iff (by linarith) (by linarith)).mpr (by linarith)

theorem log1pNorm_mono (r : ℝ) {a b : ℝ} (h : a ≤ b) :
    log1pNorm a r ≤ log1pNorm b r := by
  unfold log1pNorm pyClamp
  have hnum : log1p (max 0 a) ≤ log1p (max 0 b) :=
    log1p_le_log1p (le_max_left _ _) (max_le_max (le_refl 0) h)
  have hden : 0 < log1p (max 1e-12 r) := by
    unfold log1p
    apply Real.log_pos
    have h12 : (1e-12 : ℝ) ≤ max 1e-12 r := le_max_left _ _
    have : (0:ℝ) < 1e-12 := by norm_num
    linarith
  have hdiv : log1p (max 0 a) / log1p (max 1e-12 r)
      ≤ log1p (max 0 b) / log1p (max 1e-12 r) :=
    (div_le_div_iff_of_pos_right hden).mpr hnum
  exact max_le_max (le_refl 0) (min_le_min (le_refl 2) hdiv)

/-- The reward returned by `compute_reward` is the saturated raw score. -/
theorem compute_reward_fst_eq (m : List (String × ℝ)) (u : Option ℝ) (v : Violation) :
    (compute_reward m u v).1 = 10 * Real.tanh ((compute_reward m u v).2.raw / 3.2) := rfl

/-- The raw score is utility plus progress shaping plus milestone bonus. -/
theorem compute_reward_raw_eq (m : List (String × ℝ)) (u : Option ℝ) (v : Violation) :
    (compute_reward m u v).2.raw =
      (compute_reward m u v).2.U + 0.18 * (compute_reward m u v).2.dU
        + (compute_reward m u v).2.bonus := rfl

theorem compute_reward_dU_none (m : List (String × ℝ)) (v : Violation) :
    (compute_reward m none v).2.dU = 0 := rfl

theorem compute_reward_dU_some (m : List (String × ℝ)) (u0 : ℝ) (v : Violation) :
    (compute_reward m (some u0) v).2.dU = (compute_reward m (some u0) v).2.U - u0 := rfl

/-- The milestone bonus as a function of the metric reads. -/
theorem compute_reward_bonus_eq (m : List (String × ℝ)) (u : Option ℝ) (v : Violation) :
    (compute_reward m u v).2.bonus =
      (if 0.7 < pyClamp (getD m "recomb_overlap" 0) 0 1 then (0.05 : ℝ) else 0)
        + (if 0.8 < pyClamp (getD m "inj_balance" 0) 0 1 then (0.03 : ℝ) else 0)
        + (if (900 : ℝ) < getD m "lifetime" 0 then (0.05 : ℝ) else 0) := rfl

/-- The utility `U` of `compute_reward`, written out as a function of the
metric reads. -/
theorem compute_reward_U_eq (m : List (String × ℝ)) (u : Option ℝ) (v : Violation) :
    (compute_reward m u v).2.U =
      3 * (log1pNorm (getD m "EQE" 0) 30 *
          (0.25 + (1 - 0.25) * Real.sqrt (pyClamp (getD m "recomb_overlap" 0) 0 1 + 1e-8)) *
          (0.25 + (1 - 0.25) * Real.sqrt (pyClamp (getD m "inj_balance" 0) 0 1 + 1e-8)))
        + 1 * (0.55 * Real.sqrt (pyClamp (getD m "recomb_overlap" 0) 0 1 + 1e-8)
          + 0.35 * Real.sqrt (pyClamp (getD m "inj_balance" 0) 0 1 + 1e-8)
          + 0.1 * log1pNorm (getD m "brightness" 0) 1500
          + 0.18 * log1pNorm (getD m "lifetime" 0) 2000
          - 0.25 * log1pNorm (getD m "leakage" 0) 1
          - 0.25 * log1pNorm (getD m "auger_rate" (getD m "auger" 0)) 1
          + 0.03 * pyClamp (getD m "droop" 1) 0 1)
        - 3 * max 0 (0.45 - pyClamp (getD m "recomb_overlap" 0) 0 1) ^ 2
        - 1.5 * max 0 (0.4 - pyClamp (getD m "inj_balance" 0) 0 1) ^ 2
        - 4 * max 0 (0.6 - pyClamp (getD m "droop" 1) 0 1) ^ 2
        - 3 * max 0 ((800 - getD m "lifetime" 0) / 800) ^ 2
        - 1.4 * (max 0 ((700 - getD m "brightness" 0) / 700) ^ 2
            + max 0 ((getD m "brightness" 0 - 1800) / 1800) ^ 2)
        - 1.2 * log1p (max 0 (getD m "penalty" 0 + constraintPenalty v))
        - 0.1 * getD m "delta_params_norm" 0 ^ 2
        - 1.2 * getD m "boundary_penalty" 0
        - 1.2 * getD m "eml_thin_penalty" 0
        - 0.4 * max 0 ((getD m "V_drive" 0 - 4.2) / 4.2) ^ 2 := rfl

theorem tanh_scale_mono {r₁ r₂ : ℝ} (h : r₁ ≤ r₂) :
    10 * Real.tanh (r₁ / 3.2) ≤ 10 * Real.tanh (r₂ / 3.2) := by
  apply mul_le_mul_of_nonneg_left _ (by norm_num : (0:ℝ) ≤ 10)
  apply tanh_le_tanh
  exact (div_le_div_iff_of_pos_right (by norm_num : (0:ℝ) < 3.2)).mpr h

theorem reward_mono_eqe_aux (m₁ m₂ : List (String × ℝ)) (u : Option ℝ)
    (v : Violation)
    (hag : ∀ k, k ≠ "EQE" → ∀ d, getD m₁ k d = getD m₂ k d)
    (hle : getD m₁ "EQE" 0 ≤ getD m₂ "EQE" 0) :
    (compute_reward m₁ u v).1 ≤ (compute_reward m₂ u v).1 := by
  rw [compute_reward_fst_eq, compute_reward_fst_eq]
  apply tanh_scale_mono
  rw [compute_reward_raw_eq, compute_reward_raw_eq]
  have hbonus : (compute_reward m₁ u v).2.bonus = (compute_reward m₂ u v).2.bonus := by
    rw [compute_reward_bonus_eq, compute_reward_bonus_eq,
      hag "recomb_overlap" (by decide), hag "inj_balance" (by decide),
      hag "lifetime" (by decide)]
  have hU : (compute_reward m₁ u v).2.U ≤ (compute_reward m₂ u v).2.U := by
    rw [compute_reward_U_eq, compute_reward_U_eq,
      hag "recomb_overlap" (by decide), hag "inj_balance" (by decide),
      hag "droop" (by decide), hag "brightness" (by decide),
      hag "lifetime" (by decide), hag "leakage" (by decide),
      hag "auger" (by decide), hag "auger_rate" (by decide),
      hag "penalty" (by decide), hag "delta_params_norm" (by decide),
      hag "boundary_penalty" (by decide), hag "eml_thin_penalty" (by decide),
      hag "V_drive" (by decide)]
    have hs : log1pNorm (getD m₁ "EQE" 0) 30 ≤ log1pNorm (getD m₂ "EQE" 0) 30 :=
      log1pNorm_mono 30 hle
    have hgO : (0:ℝ) ≤ 0.25 + (1 - 0.25) *
        Real.sqrt (pyClamp (getD m₂ "recomb_overlap" 0) 0 1 + 1e-8) := by positivity
    have hgB : (0:ℝ) ≤ 0.25 + (1 - 0.25) *
        Real.sqrt (pyClamp (getD m₂ "inj_balance" 0) 0 1 + 1e-8) := by positivity
    have hcore := mul_le_mul_of_nonneg_right (mul_le_mul_of_nonneg_right hs hgO) hgB
    linarith
  cases u with
  | none =>
    rw [compute_reward_dU_none, compute_reward_dU_none]
    linarith
  | some u0 =>
    rw [compute_reward_dU_some, compute_reward_dU_some]
    linarith

theorem reward_mono_pen_aux (m₁ m₂ : List (String × ℝ)) (u : Option ℝ)
    (v : Violation)
    (hag : ∀ k, k ≠ "penalty" → ∀ d, getD m₁ k d = getD m₂ k d)
    (hle : getD m₁ "penalty" 0 ≤ getD m₂ "penalty" 0) :
    (compute_reward m₂ u v).1 ≤ (compute_reward m₁ u v).1 := by
  rw [compute_reward_fst_eq, compute_reward_fst_eq]
  apply tanh_scale_mono
  rw [compute_reward_raw_eq, compute_reward_raw_eq]
  have hbonus : (compute_reward m₁ u v).2.bonus = (compute_reward m₂ u v).2.bonus := by
    rw [compute_reward_bonus_eq, compute_reward_bonus_eq,
      hag "recomb_overlap" (by decide), hag "inj_balance" (by decide),
      hag "lifetime" (by decide)]
  have hU : (compute_reward m₂ u v).2.U ≤ (compute_reward m₁ u v).2.U := by
    rw [compute_reward_U_eq, compute_reward_U_eq,
      hag "EQE" (by decide), hag "recomb_overlap" (by decide),
      hag "inj_balance" (by decide), hag "droop" (by decide),
      hag "brightness" (by decide), hag "lifetime" (by decide),
      hag "leakage" (by decide), hag "auger" (by decide),
      hag "auger_rate" (by decide), hag "delta_params_norm" (by decide),
      hag "boundary_penalty" (by decide), hag "eml_thin_penalty" (by decide),
      hag "V_drive" (by decide)]
    have hlog : log1p (max 0 (getD m₁ "penalty" 0 + constraintPenalty v))
        ≤ log1p (max 0 (getD m₂ "penalty" 0 + constraintPenalty v)) :=
      log1p_le_log1p (le_max_left _ _) (max_le_max (le_refl 0) (by linarith))
    linarith
  cases u with
  | none =>
    rw [compute_reward_dU_none, compute_reward_dU_none]
    linarith
  | some u0 =>
    rw [compute_reward_dU_some, compute_reward_dU_some]
    linarith

/-- Claim C5: for inputs agreeing everywhere except on the efficiency metric
`EQE`, the input with the larger (non-negative) `EQE` does not receive a
smaller reward; for inputs agreeing everywhere except on the `penalty`
metric, the input with the larger penalty does not receive a larger
reward. -/
theorem compute_reward_monotone :
    (∀ (m₁ m₂ : List (String × ℝ)) (u : Option ℝ) (v : Violation),
      (∀ k, k ≠ "EQE" → ∀ d, getD m₁ k d = getD m₂ k d) →
      0 ≤ getD m₁ "EQE" 0 → getD m₁ "EQE" 0 ≤ getD m₂ "EQE" 0 →
      (compute_reward m₁ u v).1 ≤ (compute_reward m₂ u v).1) ∧
    (∀ (m₁ m₂ : List (String × ℝ)) (u : Option ℝ) (v : Violation),
      (∀ k, k ≠ "penalty" → ∀ d, getD m₁ k d = getD m₂ k d) →
      getD m₁ "penalty" 0 ≤ getD m₂ "penalty" 0 →
      (compute_reward m₂ u v).1 ≤ (compute_reward m₁ u v).1) :=
  ⟨fun m₁ m₂ u v hag _ hle => reward_mono_eqe_aux m₁ m₂ u v hag hle,
   fun m₁ m₂ u v hag hle => reward_mono_pen_aux m₁ m₂ u v hag hle⟩

/-- Witness for C5: a concrete `EQE` increase from 0.1 to 0.2 and a concrete
penalty increase from 0 to 0.1, each with all other entries identical. -/
theorem compute_reward_monotone_witness :
    (compute_reward [("EQE", 0.1)] none (Violation.scalar 0)).1
        ≤ (compute_reward [("EQE", 0.2)] none (Violation.scalar 0)).1 ∧
    (compute_reward [("penalty", 0.1)] none (Violation.scalar 0)).1
        ≤ (compute_reward [("penalty", 0)] none (Violation.scalar 0)).1 := by
  constructor
  · exact compute_reward_monotone.1 [("EQE", 0.1)] [("EQE", 0.2)] none
      (Violation.scalar 0)
      (by
        intro k hk d
        simp only [getD]
        rw [if_neg (fun h => hk h.symm), if_neg (fun h => hk h.symm)])
      (by norm_num [getD]) (by norm_num [getD])
  · exact compute_reward_monotone.2 [("penalty", 0)] [("penalty", 0.1)] none
      (Violation.scalar 0)
      (by
        intro k hk d
        simp only [getD]
        rw [if_neg (fun h => hk h.symm), if_neg (fun h => hk h.symm)])
      (by norm_num [getD])

/-! ## Surrogate evaluator bounds (C10) -/

theorem tanh_nonneg {x : ℝ} (h : 0 ≤ x) : 0 ≤ Real.tanh x := by
  have := tanh_strictMono.monotone h
  rw [Real.tanh_zero] at this
  exact this

theorem tanh_neg_of_neg {x : ℝ} (h : x < 0) : Real.tanh x < 0 := by
  have := tanh_strictMono h
  rw [Real.tanh_zero] at this
  exact this

theorem sigmoid_pos (x : ℝ) : 0 < sigmoid x := by
  unfold sigmoid
  have := Real.exp_pos (-x)
  positivity

theorem sigmoid_lt_one (x : ℝ) : sigmoid x < 1 := by
  unfold sigmoid
  have h := Real.exp_pos (-x)
  rw [div_lt_one (by linarith)]
  linarith

theorem clip01_nonneg (x : ℝ) : 0 ≤ clip x 0 1 :=
  le_min (by norm_num) (le_max_left _ _)

theorem eqe_sign_aux (ib bo ov mie cov sl gap qdg dr : ℝ)
    (hib : 0 < ib) (hbo : 0 ≤ bo) (hov : 0 < ov) (hmie : 0 < mie)
    (hcov : 0 < cov) (hsl : 0 < sl) (hgap : 0 < gap) (hqdg : qdg < 0)
    (hdr : 0 < dr) :
    40 * Real.tanh (22 * ib * (0.55 + 0.45 * bo) * ov *
      (mie * cov * sl * gap * qdg) * dr / 40) < 0 := by
  have h1 : 0 < 22 * ib * (0.55 + 0.45 * bo) * ov :=
    mul_pos (mul_pos (mul_pos (by norm_num) hib) (by linarith)) hov
  have hoc : mie * cov * sl * gap * qdg < 0 :=
    mul_neg_of_pos_of_neg (mul_pos (mul_pos (mul_pos hmie hcov) hsl) hgap) hqdg
  have h2 := mul_neg_of_pos_of_neg h1 hoc
  have h3 := mul_neg_of_neg_of_pos h2 hdr
  have h4 := div_neg_of_neg_of_pos h3 (by norm_num : (0:ℝ) < 40)
  have h5 := tanh_neg_of_neg h4
  linarith

/-- A parameter mapping with finite values for all thirteen declared names,
with `qd_coverage` finite but far below its declared range. -/
def w10Params : List (String × ℝ) :=
  [("t_HTL_nm", 35), ("t_EML_nm", 25), ("t_ETL_nm", 35), ("phi_HTL_eV", 5.2),
   ("phi_ETL_eV", 4.15), ("p_doping_HTL", 0.15), ("n_doping_ETL", 0.15),
   ("ps_radius_nm", 150), ("ps_fill_frac", 0.25), ("sl_thickness_nm", 19),
   ("sl_gap_um", 2.65), ("qd_coverage", -10), ("V_drive", 4)]

/-- Counterexample for C10 as stated: on a mapping whose thirteen values are
all finite, `SurrogateSim.evaluate` can return a negative `EQE` — not every
returned value is non-negative. -/
theorem surrogate_nonneg_counterexample :
    getD (surrogateEvaluate w10Params) "EQE" 0 < 0 := by
  have hqd : getD w10Params "qd_coverage" 0 = -10 := by
    simp only [w10Params, getD, String.reduceEq, reduceIte]
  exact eqe_sign_aux _ _ _ _ _ _ _ _ _
    (Real.exp_pos _) (le_of_lt (sigmoid_pos _)) (Real.exp_pos _)
    (by positivity)
    (by linarith [clip01_nonneg (getD w10Params "ps_fill_frac" 0 / 0.3)])
    (by positivity) (by positivity)
    (by rw [hqd]; norm_num)
    (lt_of_lt_of_le (by norm_num) (le_max_left _ _))

theorem eqe_nonneg_aux (ib bo ov oc dr : ℝ) (hib : 0 ≤ ib) (hbo : 0 ≤ bo)
    (hov : 0 ≤ ov) (hoc : 0 ≤ oc) (hdr : 0 ≤ dr) :
    0 ≤ 40 * Real.tanh (22 * ib * (0.55 + 0.45 * bo) * ov * oc * dr / 40) := by
  apply mul_nonneg (by norm_num)
  apply tanh_nonneg
  apply div_nonneg _ (by norm_num)
  exact mul_nonneg (mul_nonneg (mul_nonneg (mul_nonneg
    (mul_nonneg (by norm_num) hib) (by linarith)) hov) hoc) hdr

theorem vterm_nonneg (d : ℝ) (hd : 0 ≤ d) : 0 ≤ 1 - Real.exp (-d / 1.1) := by
  have h2 : -d / 1.1 = -(d / 1.1) := by ring
  have h3 : Real.exp (-d / 1.1) ≤ 1 := by
    rw [h2]
    exact Real.exp_le_one_iff.mpr (neg_nonpos.mpr (by positivity))
  linarith

theorem brightness_nonneg_aux (vt b o : ℝ) (hvt : 0 ≤ vt) (hb : 0 ≤ b)
    (ho : 0 ≤ o) : 0 ≤ 250 + 1600 * vt * (0.55 + 0.45 * b) * (0.55 + 0.45 * o) := by
  have := mul_nonneg (mul_nonneg (mul_nonneg
    (by norm_num : (0:ℝ) ≤ 1600) hvt) (by linarith : (0:ℝ) ≤ 0.55 + 0.45 * b))
    (by linarith : (0:ℝ) ≤ 0.55 + 0.45 * o)
  linarith

theorem forty_tanh_lt (t : ℝ) : 40 * Real.tanh t < 40 := by
  nlinarith [tanh_lt_one t]

/-- Claim C10 (amended): for every physical-parameter mapping whose thirteen
declared values lie within their declared [low, high] bounds (as every
`to_real` output does), `SurrogateSim.evaluate` returns a metrics mapping in
which every value is non-negative (and, being a real number, finite), with
`recomb_overlap` in (0, 1], `droop` in [0.05, 1], `lifetime` in [50, 2000]
and `EQE` strictly less than 40. -/
theorem surrogate_bounds (p : List (String × ℝ))
    (hb : ∀ pd ∈ qledParams, pd.low ≤ getD p pd.name 0 ∧ getD p pd.name 0 ≤ pd.high) :
    (∀ e ∈ surrogateEvaluate p, 0 ≤ e.2) ∧
    0 < getD (surrogateEvaluate p) "recomb_overlap" 0 ∧
    getD (surrogateEvaluate p) "recomb_overlap" 0 ≤ 1 ∧
    0.05 ≤ getD (surrogateEvaluate p) "droop" 0 ∧
    getD (surrogateEvaluate p) "droop" 0 ≤ 1 ∧
    50 ≤ getD (surrogateEvaluate p) "lifetime" 0 ∧
    getD (surrogateEvaluate p) "lifetime" 0 ≤ 2000 ∧
    getD (surrogateEvaluate p) "EQE" 0 < 40 := by
  have hmemq : (⟨"qd_coverage", 0.2, 1⟩ : ParamDef) ∈ qledParams := by
    simp [qledParams]
  have hqd : (0.2:ℝ) ≤ getD p "qd_coverage" 0 := (hb _ hmemq).1
  have hqdg : 0 ≤ 0.6 + 0.4 * getD p "qd_coverage" 0 := by linarith
  have hclip : 0 ≤ clip (getD p "ps_fill_frac" 0 / 0.3) 0 1 := clip01_nonneg _
  refine ⟨?_, ?_, ?_, ?_, ?_, ?_, ?_, ?_⟩
  · intro e he
    simp only [surrogateEvaluate, List.mem_cons, List.not_mem_nil, or_false] at he
    rcases he with rfl | rfl | rfl | rfl | rfl | rfl | rfl | rfl | rfl | rfl
    · refine eqe_nonneg_aux _ _ _ _ _ (le_of_lt (Real.exp_pos _))
        (le_of_lt (sigmoid_pos _)) (le_of_lt (Real.exp_pos _)) ?_
        (le_trans (by norm_num) (le_max_left _ _))
      exact mul_nonneg (mul_nonneg (mul_nonneg (mul_nonneg
        (by positivity) (by linarith)) (by positivity)) (by positivity)) hqdg
    · exact le_of_lt (Real.exp_pos _)
    · dsimp only
      split_ifs <;> linarith
    · exact le_of_lt (Real.exp_pos _)
    · exact mul_nonneg (mul_nonneg (mul_nonneg (mul_nonneg
        (by positivity) (by linarith)) (by positivity)) (by positivity)) hqdg
    · exact le_trans (by norm_num) (le_max_left _ _)
    · exact brightness_nonneg_aux _ _ _ (vterm_nonneg _ (le_max_left _ _))
        (le_of_lt (sigmoid_pos _)) (le_of_lt (Real.exp_pos _))
    · exact le_max_left _ _
    · exact mul_nonneg (by positivity) (le_max_left _ _)
    · exact le_trans (by norm_num) (le_max_left _ _)
  · exact Real.exp_pos _
  · apply Real.exp_le_one_iff.mpr
    rw [neg_div]
    exact neg_nonpos.mpr (by positivity)
  · exact le_max_left _ _
  · exact max_le (by norm_num) (min_le_left _ _)
  · exact le_max_left _ _
  · exact max_le (by norm_num) (min_le_left _ _)
  · exact forty_tanh_lt _

/-- Witness for the amended C10 at the concrete in-bounds mapping `w3Dict`. -/
theorem surrogate_bounds_witness :
    (∀ e ∈ surrogateEvaluate w3Dict, 0 ≤ e.2) ∧
    0 < getD (surrogateEvaluate w3Dict) "recomb_overlap" 0 ∧
    getD (surrogateEvaluate w3Dict) "recomb_overlap" 0 ≤ 1 ∧
    0.05 ≤ getD (surrogateEvaluate w3Dict) "droop" 0 ∧
    getD (surrogateEvaluate w3Dict) "droop" 0 ≤ 1 ∧
    50 ≤ getD (surrogateEvaluate w3Dict) "lifetime" 0 ∧
    getD (surrogateEvaluate w3Dict) "lifetime" 0 ≤ 2000 ∧
    getD (surrogateEvaluate w3Dict) "EQE" 0 < 40 := by
  apply surrogate_bounds
  intro pd hpd
  simp only [qledParams, List.mem_cons, List.not_mem_nil, or_false] at hpd
  rcases hpd with rfl | rfl | rfl | rfl | rfl | rfl | rfl | rfl | rfl | rfl | rfl | rfl | rfl <;>
  · refine ⟨?_, ?_⟩ <;>
    · simp only [getD, w3Dict, String.reduceEq, reduceIte]
      norm_num

end

end QLEDRLopt
